import Mathlib

/-!
# Verification of the repository provisioning and push-log service (`src/app/main.py`)

Shallow embedding of the FastAPI service in `app/main.py`:

* `safe_name` — the identifier validator (main.py lines 17-28);
* an explicit filesystem state `FS` over which the endpoint handlers are
  modelled as pure state-passing functions;
* `write_post_receive_hook` (lines 30-59), `create_repo` (lines 61-86),
  `list_repos` (lines 88-101), `get_push_log` (lines 103-119);
* `run_hook` — the behaviour of the installed bash `post-receive` hook
  script (the string written at lines 37-56), at the granularity of one
  invocation by the version-control engine.

The external `git` engine (`subprocess.run(["git", "init", "--bare", ...])`)
is modelled abstractly: `gitInitBare` creates the repository directory tree
and marks the path as a valid bare repository; re-initialising an existing
path succeeds (as `git init --bare` does) and is idempotent in the model.
Python `str.strip()` is modelled over ASCII whitespace.
-/

/-- Filesystem paths as lists of components, relative to the filesystem
root.  `REPO_ROOT` (main.py line 8) is the single component `"repos"`;
the absolute prefix `APP_ROOT` is abstracted away. -/
abbrev FsPath := List String

/-- `REPO_ROOT = APP_ROOT / "repos"` (main.py line 8). -/
def REPO_ROOT : FsPath := ["repos"]

/-- A regular file: its text content and whether its permission bits make
it executable by the owning process. -/
structure FsFile where
  content : String
  exec : Bool
deriving DecidableEq, Repr

/-- Filesystem state: the set of existing directories, the existing regular
files, and the set of paths at which the external engine has initialised a
valid bare repository. -/
structure FS where
  dirs : List FsPath
  files : List (FsPath × FsFile)
  bare : List FsPath
deriving DecidableEq, Repr

/-- The filesystem as the service finds it at startup: `REPO_ROOT` exists
(`REPO_ROOT.mkdir(parents=True, exist_ok=True)`, main.py line 9), nothing
else. -/
def FS.init : FS := ⟨[REPO_ROOT], [], []⟩

def FS.isDir (fs : FS) (p : FsPath) : Bool := fs.dirs.contains p

def FS.fileAt (fs : FS) (p : FsPath) : Option FsFile :=
  (fs.files.find? (fun q => q.1 == p)).map (fun q => q.2)

def FS.isFile (fs : FS) (p : FsPath) : Bool := (fs.fileAt p).isSome

/-- `Path.exists()`: true for a directory or a regular file. -/
def FS.pathExists (fs : FS) (p : FsPath) : Bool := fs.isDir p || fs.isFile p

/-- Content of the file at `p`, when a file is there. -/
def FS.readFile (fs : FS) (p : FsPath) : Option String :=
  (fs.fileAt p).map (fun f => f.content)

/-- Whether the file at `p` exists and is executable. -/
def FS.isExecFile (fs : FS) (p : FsPath) : Bool :=
  match fs.fileAt p with
  | some f => f.exec
  | none => false

/-- Create one directory if absent (`exist_ok=True` semantics for a single
level). -/
def FS.mkdir1 (fs : FS) (p : FsPath) : FS :=
  if fs.dirs.contains p then fs else { fs with dirs := fs.dirs ++ [p] }

/-- `p.mkdir(parents=True, exist_ok=True)`: create every ancestor of `p`
and `p` itself, skipping the ones already present. -/
def FS.mkdirP (fs : FS) (p : FsPath) : FS :=
  (List.range p.length).foldl (fun a i => a.mkdir1 (p.take (i + 1))) fs

/-- `path.write_text(content)`: create or truncate the file at `p`.  A
fresh file is created with the default (non-executable) mode; rewriting an
existing file keeps its permission bits.  (The entry for `p` is stored at
the front; entry order carries no meaning beyond traversal order.) -/
def FS.writeText (fs : FS) (p : FsPath) (content : String) : FS :=
  let ex := match fs.fileAt p with | some f => f.exec | none => false
  { fs with files := (p, ⟨content, ex⟩) :: fs.files.filter (fun q => !(q.1 == p)) }

/-- `os.chmod(p, 0o755)`: set the executable bit of the file at `p` (the
source only calls it on a file it has just written). -/
def FS.chmod755 (fs : FS) (p : FsPath) : FS :=
  match fs.fileAt p with
  | some f => { fs with files := (p, ⟨f.content, true⟩) :: fs.files.filter (fun q => !(q.1 == p)) }
  | none => fs

/-- Shell `>> file`: append text to the file at `p`, creating it (with the
default mode) if absent. -/
def FS.appendText (fs : FS) (p : FsPath) (s : String) : FS :=
  match fs.fileAt p with
  | some f => { fs with files := (p, ⟨f.content ++ s, f.exec⟩) :: fs.files.filter (fun q => !(q.1 == p)) }
  | none => { fs with files := (p, ⟨s, false⟩) :: fs.files }

/-- Whether the external engine considers `p` a valid bare repository. -/
def FS.isBareRepo (fs : FS) (p : FsPath) : Bool := fs.bare.contains p

/-- Record `p` as a valid bare repository, once. -/
def markBare (fs : FS) (p : FsPath) : FS :=
  if fs.bare.contains p then fs else { fs with bare := fs.bare ++ [p] }

/-- `subprocess.run(["git", "init", "--bare", str(repo_dir)], check=True)`
(main.py line 76), modelled abstractly: create the repository directory
with its standard subdirectories and record it as a valid bare repository.
Re-running it on an existing repository succeeds (git re-initialises) and
changes nothing in the model. -/
def gitInitBare (fs : FS) (p : FsPath) : FS :=
  markBare ((((fs.mkdirP p).mkdir1 (p ++ ["hooks"])).mkdir1 (p ++ ["objects"])).mkdir1
    (p ++ ["refs"])) p

deriving instance DecidableEq for Except

/-! ## The identifier validator `safe_name` (main.py lines 17-28) -/

/-- ASCII whitespace, modelling the characters `str.strip()` removes
(non-ASCII Unicode whitespace is not modelled). -/
def pyIsSpace (c : Char) : Bool :=
  c = ' ' || c = '\t' || c = '\n' || c = '\r' || c = '\x0b' || c = '\x0c'

/-- `s.strip()` on the character list. -/
def stripChars (l : List Char) : List Char :=
  ((l.dropWhile pyIsSpace).reverse.dropWhile pyIsSpace).reverse

/-- `s.strip()` (main.py line 18). -/
def pyStrip (s : String) : String := ⟨stripChars s.data⟩

/-- `".." in s`: the two-dot substring test. -/
def hasDotDot : List Char → Bool
  | '.' :: '.' :: _ => true
  | _ :: rest => hasDotDot rest
  | [] => false

/-- The allow-list of main.py line 25: ASCII letters, digits, dash,
underscore, dot. -/
def allowedChar (c : Char) : Bool :=
  ('a' ≤ c && c ≤ 'z') || ('A' ≤ c && c ≤ 'Z') || ('0' ≤ c && c ≤ '9') ||
    c = '-' || c = '_' || c = '.'

/-- `safe_name` (main.py lines 17-28): strip, reject empty, reject
separators and the parent-directory sequence, reject characters outside
the allow-list, otherwise return the stripped string.  Errors carry the
`ValueError` messages of the source. -/
def safe_name (s : String) : Except String String :=
  let s := pyStrip s
  if s.data.isEmpty then .error "Empty name not allowed"
  else if s.data.contains '/' || s.data.contains '\\' || hasDotDot s.data then
    .error "Invalid name"
  else if s.data.any (fun c => !allowedChar c) then
    .error "Only letters, numbers, dash, underscore, dot are allowed"
  else .ok s

example : safe_name " abc " = .ok "abc" := by decide
example : safe_name ".." = .error "Invalid name" := by decide
example : safe_name "a/b" = .error "Invalid name" := by decide
example : safe_name "" = .error "Empty name not allowed" := by decide
example : (safe_name "a b").isOk = false := by decide

/-! ## The post-receive hook (main.py lines 30-59) -/

/-- The bash script written by `write_post_receive_hook` (main.py lines
37-56), verbatim. -/
def hook_content : String :=
  "#!/usr/bin/env bash\nset -euo pipefail\n\nREPO_DIR=\"$(pwd)\"\nLOG_FILE=\"$REPO_DIR/push.log\"\nPUSHER=\"$\x7bPUSHER_NAME:-unknown\x7d\"\n\nTS=\"$(date -u +\"%Y-%m-%dT%H:%M:%SZ\")\"\n\n\x7b\n  echo \"=== PUSH ===\"\n  echo \"time_utc=$TS\"\n  echo \"pusher=$PUSHER\"\n  echo \"repo=$REPO_DIR\"\n  echo \"updates:\"\n  while read -r oldrev newrev refname; do\n    echo \"  $refname $oldrev -> $newrev\"\n  done\n  echo\n\x7d >> \"$LOG_FILE\"\n"

/-- `write_post_receive_hook` (main.py lines 30-59): create the `hooks`
directory, write the script, make it executable. -/
def write_post_receive_hook (fs : FS) (repo_dir : FsPath) : FS :=
  FS.chmod755
    (FS.writeText (fs.mkdirP (repo_dir ++ ["hooks"])) (repo_dir ++ ["hooks", "post-receive"])
      hook_content)
    (repo_dir ++ ["hooks", "post-receive"])

/-- The sequence of filesystem states a hook installation passes through,
one entry per atomic filesystem operation of `write_post_receive_hook`:
initial, after `hooks_dir.mkdir` (line 32), after `hook_path.write_text`
(line 58), after `os.chmod(hook_path, 0o755)` (line 59). -/
def hook_install_states (fs : FS) (repo_dir : FsPath) : List FS :=
  let hp := repo_dir ++ ["hooks", "post-receive"]
  let fs1 := fs.mkdirP (repo_dir ++ ["hooks"])
  let fs2 := FS.writeText fs1 hp hook_content
  let fs3 := FS.chmod755 fs2 hp
  [fs, fs1, fs2, fs3]

/-! ## Endpoint handlers -/

/-- Errors raised as `HTTPException`: status 400, 409, 404. -/
inductive ApiErr where
  | badRequest (detail : String)
  | conflict (detail : String)
  | notFound (detail : String)
deriving DecidableEq, Repr

/-- The JSON body returned by `POST /repos` and listed by `GET /repos`
(the `clone_url_file` field is derived from `path` and omitted). -/
structure RepoResp where
  org : String
  name : String
  path : FsPath
deriving DecidableEq, Repr

/-- `repo_dir = REPO_ROOT / org / f"{name}.git"` as computed by
`create_repo` (main.py line 69). -/
def create_repo_dir (org name : String) : FsPath :=
  REPO_ROOT ++ [org, name ++ ".git"]

/-- `repo_dir = REPO_ROOT / org / f"{name}.git"` as computed by
`get_push_log` (main.py line 111). -/
def pushlog_repo_dir (org name : String) : FsPath :=
  REPO_ROOT ++ [org, name ++ ".git"]

/-- The read-only phase of `create_repo` (main.py lines 63-71): validate
both identifiers, then the `repo_dir.exists()` collision check. -/
def create_repo_check (fs : FS) (orgRaw nameRaw : String) : Except ApiErr (String × String) :=
  match safe_name orgRaw with
  | .error e => .error (.badRequest e)
  | .ok org =>
    match safe_name nameRaw with
    | .error e => .error (.badRequest e)
    | .ok name =>
      if fs.pathExists (create_repo_dir org name) then
        .error (.conflict "Repo already exists")
      else .ok (org, name)

/-- The mutating phase of `create_repo` (main.py lines 73-79): create the
parent directory, run `git init --bare`, install the hook. -/
def create_repo_act (fs : FS) (org name : String) : FS :=
  write_post_receive_hook
    (gitInitBare (fs.mkdirP (REPO_ROOT ++ [org])) (create_repo_dir org name))
    (create_repo_dir org name)

/-- `POST /repos` (`create_repo`, main.py lines 61-86): the read-only
phase followed, on success, by the mutating phase and the response body.
The returned state is the filesystem after the call. -/
def create_repo (fs : FS) (orgRaw nameRaw : String) : Except ApiErr RepoResp × FS :=
  match create_repo_check fs orgRaw nameRaw with
  | .error e => (.error e, fs)
  | .ok (org, name) =>
      (.ok ⟨org, name, create_repo_dir org name⟩, create_repo_act fs org name)

/-- Final component of a path (`p.name` in pathlib). -/
def lastName (p : FsPath) : String := p.getLast?.getD ""

/-- `p.parent.name` in pathlib. -/
def parentName (p : FsPath) : String := p.dropLast.getLast?.getD ""

/-- Whether `p` is a proper descendant of `REPO_ROOT` — the candidate set
traversed by `REPO_ROOT.rglob` (any depth, directories and files alike). -/
def strictlyUnderRoot (p : FsPath) : Bool :=
  p.take REPO_ROOT.length == REPO_ROOT && REPO_ROOT.length < p.length

/-- `fnmatch`-style suffix test, on character lists (so that it computes
by kernel reduction). -/
def strEndsWith (s suf : String) : Bool :=
  s.data.reverse.take suf.data.length == suf.data.reverse

/-- `Path(n).stem` for a final component `n` matching the glob `*.git`:
the name without its `.git` suffix, except that the bare name `".git"`
has no suffix in pathlib and is its own stem. -/
def pyStemGit (n : String) : String :=
  if n = ".git" then ".git" else ⟨n.data.take (n.data.length - 4)⟩

/-- `GET /repos` (`list_repos`, main.py lines 88-101):
`REPO_ROOT.rglob("*.git")` yields every descendant of the root, at any
depth, whose final component matches `*.git`; for each, the handler
reports `org = p.parent.name` and `name = p.stem`.  Traversal order is
the model's insertion order (the source's order is filesystem-dependent
and not contractually significant). -/
def list_repos (fs : FS) : List RepoResp :=
  (fs.dirs ++ fs.files.map (fun q => q.1)).filterMap (fun p =>
    if strictlyUnderRoot p && strEndsWith (lastName p) ".git" then
      some ⟨parentName p, pyStemGit (lastName p), p⟩
    else none)

/-- The JSON body returned by `GET /repos/{org}/{name}/pushlog`; `note` is
`some` in the never-pushed case. -/
structure PushLogResp where
  org : String
  name : String
  pushes : String
  note : Option String
deriving DecidableEq, Repr

/-- `GET /repos/{org}/{name}/pushlog` (`get_push_log`, main.py lines
103-119).  The source reads `log_path.read_text()` when `log_path`
exists; a `push.log` that is a directory would raise in Python and is not
reachable in the model, which returns the file content. -/
def get_push_log (fs : FS) (orgRaw nameRaw : String) : Except ApiErr PushLogResp :=
  match safe_name orgRaw with
  | .error e => .error (.badRequest e)
  | .ok org =>
    match safe_name nameRaw with
    | .error e => .error (.badRequest e)
    | .ok name =>
      let repo_dir := pushlog_repo_dir org name
      if !fs.pathExists repo_dir then .error (.notFound "Repo not found")
      else
        let log_path := repo_dir ++ ["push.log"]
        if !fs.pathExists log_path then .ok ⟨org, name, "", some "No pushes logged yet"⟩
        else .ok ⟨org, name, (fs.readFile log_path).getD "", none⟩

/-! ## Behaviour of the installed hook script -/

/-- One ref update `(old_revision, new_revision, ref_name)` as delivered
to the hook on stdin, one triple per line (`while read -r oldrev newrev
refname`).  Fields are taken as already split; revisions and ref names
contain no whitespace in the engine's protocol. -/
structure RefUpdate where
  oldrev : String
  newrev : String
  refname : String
deriving DecidableEq, Repr

/-- `echo "  $refname $oldrev -> $newrev"` — one formatted update line. -/
def hook_update_line (u : RefUpdate) : String :=
  "  " ++ u.refname ++ " " ++ u.oldrev ++ " -> " ++ u.newrev

/-- The lines of the block the hook script's grouped `echo`s produce for
one invocation: header, timestamp, pusher, repository path, `updates:`,
one line per ref update, trailing blank line. -/
def hook_block (ts pusher repoDir : String) (updates : List RefUpdate) : List String :=
  ["=== PUSH ===", "time_utc=" ++ ts, "pusher=" ++ pusher, "repo=" ++ repoDir, "updates:"]
    ++ updates.map hook_update_line ++ [""]

/-- Render lines as text, each followed by a newline (as `echo` emits). -/
def linesText (ls : List String) : String :=
  ls.foldr (fun l acc => l ++ "\n" ++ acc) ""

/-- Textual rendering of a path, as `$(pwd)` reports it. -/
def pathString (p : FsPath) : String := "/" ++ String.intercalate "/" p

/-- One invocation of the installed `post-receive` script in repository
`repo_dir`: resolve the pusher from the environment (default `"unknown"`),
format the block, and append it as a unit to `push.log` (the grouped
redirection `\x7b ... \x7d >> "$LOG_FILE"`, creating the file on first
append). -/
def run_hook (fs : FS) (repo_dir : FsPath) (pusherEnv : Option String)
    (ts : String) (updates : List RefUpdate) : FS :=
  FS.appendText fs (repo_dir ++ ["push.log"])
    (linesText (hook_block ts (pusherEnv.getD "unknown") (pathString repo_dir) updates))

/-! ## Two interleaved `create_repo` calls -/

/-- The control point of one in-flight `create_repo` request: before its
read-only phase, between the phases, or finished with its result. -/
inductive ProcState where
  | toCheck
  | toAct (org name : String)
  | finished (r : Except ApiErr RepoResp)
deriving DecidableEq, Repr

/-- Advance one request by one phase against the shared filesystem. -/
def procStep (orgRaw nameRaw : String) : ProcState → FS → ProcState × FS
  | .toCheck, fs =>
      match create_repo_check fs orgRaw nameRaw with
      | .error e => (.finished (.error e), fs)
      | .ok (org, name) => (.toAct org name, fs)
  | .toAct org name, fs =>
      (.finished (.ok ⟨org, name, create_repo_dir org name⟩), create_repo_act fs org name)
  | .finished r, fs => (.finished r, fs)

/-- Joint state of two concurrent `create_repo` requests A and B over one
shared filesystem. -/
structure RaceState where
  a : ProcState
  b : ProcState
  fs : FS
deriving DecidableEq, Repr

/-- Run one scheduler pick: `true` advances request A, `false` request B. -/
def raceStep (onA onB : String × String) (s : RaceState) (pickA : Bool) : RaceState :=
  if pickA then
    let (a, fs) := procStep onA.1 onA.2 s.a s.fs
    ⟨a, s.b, fs⟩
  else
    let (b, fs) := procStep onB.1 onB.2 s.b s.fs
    ⟨s.a, b, fs⟩

/-- Execute a schedule of picks from both requests at `toCheck` on `fs`. -/
def runRace (onA onB : String × String) (fs : FS) (sched : List Bool) : RaceState :=
  sched.foldl (raceStep onA onB) ⟨.toCheck, .toCheck, fs⟩

example : (create_repo FS.init "acme" "widgets").1 =
    .ok ⟨"acme", "widgets", ["repos", "acme", "widgets.git"]⟩ := by decide
example : (create_repo (create_repo FS.init "acme" "widgets").2 "acme" "widgets").1 =
    .error (.conflict "Repo already exists") := by decide
example : (list_repos (create_repo FS.init "acme" "widgets").2).length = 1 := by decide

/-! ## Helper lemmas about the filesystem model -/

theorem mkdir1_files (fs : FS) (p : FsPath) : (fs.mkdir1 p).files = fs.files := by
  unfold FS.mkdir1; split <;> rfl

theorem mkdir1_bare (fs : FS) (p : FsPath) : (fs.mkdir1 p).bare = fs.bare := by
  unfold FS.mkdir1; split <;> rfl

theorem foldl_mkdir1_files (l : List Nat) (p : FsPath) (fs : FS) :
    (l.foldl (fun a i => a.mkdir1 (p.take (i + 1))) fs).files = fs.files := by
  induction l generalizing fs with
  | nil => rfl
  | cons i t ih => rw [List.foldl_cons, ih, mkdir1_files]

theorem foldl_mkdir1_bare (l : List Nat) (p : FsPath) (fs : FS) :
    (l.foldl (fun a i => a.mkdir1 (p.take (i + 1))) fs).bare = fs.bare := by
  induction l generalizing fs with
  | nil => rfl
  | cons i t ih => rw [List.foldl_cons, ih, mkdir1_bare]

theorem mkdirP_files (fs : FS) (p : FsPath) : (fs.mkdirP p).files = fs.files :=
  foldl_mkdir1_files _ _ _

theorem mkdirP_bare (fs : FS) (p : FsPath) : (fs.mkdirP p).bare = fs.bare :=
  foldl_mkdir1_bare _ _ _

theorem mkdirP_fileAt (fs : FS) (p q : FsPath) : (fs.mkdirP p).fileAt q = fs.fileAt q := by
  unfold FS.fileAt; rw [mkdirP_files]

theorem fileAt_writeText_self (fs : FS) (p : FsPath) (c : String) :
    ∃ b, (fs.writeText p c).fileAt p = some ⟨c, b⟩ := by
  refine ⟨match fs.fileAt p with | some f => f.exec | none => false, ?_⟩
  simp [FS.writeText, FS.fileAt, List.find?]

theorem writeText_isFile (fs : FS) (p : FsPath) (c : String) :
    (fs.writeText p c).isFile p = true := by
  obtain ⟨b, h⟩ := fileAt_writeText_self fs p c
  unfold FS.isFile; rw [h]; rfl

theorem writeText_bare (fs : FS) (p : FsPath) (c : String) :
    (fs.writeText p c).bare = fs.bare := rfl

theorem chmod755_bare (fs : FS) (p : FsPath) : (fs.chmod755 p).bare = fs.bare := by
  unfold FS.chmod755; split <;> rfl

theorem chmod755_isFile_isExec (fs : FS) (p : FsPath) (h : fs.isFile p = true) :
    (fs.chmod755 p).isFile p = true ∧ (fs.chmod755 p).isExecFile p = true := by
  unfold FS.isFile at h
  cases hf : fs.fileAt p with
  | none => rw [hf] at h; simp at h
  | some f =>
      unfold FS.chmod755
      rw [hf]
      unfold FS.isFile FS.isExecFile FS.fileAt
      simp [List.find?]

theorem elem_append_self (l : List FsPath) (p : FsPath) : (l ++ [p]).contains p = true := by
  induction l with
  | nil => simp [List.contains, List.elem]
  | cons b t ih =>
      show List.elem p (b :: (t ++ [p])) = true
      unfold List.elem
      cases hb : p == b
      · exact ih
      · rfl

theorem markBare_isBare (fs : FS) (p : FsPath) : (markBare fs p).isBareRepo p = true := by
  unfold markBare FS.isBareRepo
  split
  · assumption
  · exact elem_append_self _ _

theorem markBare_files (fs : FS) (p : FsPath) : (markBare fs p).files = fs.files := by
  unfold markBare; split <;> rfl

theorem gitInitBare_isBare (fs : FS) (p : FsPath) : (gitInitBare fs p).isBareRepo p = true :=
  markBare_isBare _ _

theorem gitInitBare_files (fs : FS) (p : FsPath) : (gitInitBare fs p).files = fs.files := by
  unfold gitInitBare
  rw [markBare_files, mkdir1_files, mkdir1_files, mkdir1_files, mkdirP_files]

theorem write_hook_isFile_isExec (fs : FS) (repo_dir : FsPath) :
    (write_post_receive_hook fs repo_dir).isFile (repo_dir ++ ["hooks", "post-receive"]) = true ∧
    (write_post_receive_hook fs repo_dir).isExecFile (repo_dir ++ ["hooks", "post-receive"]) = true := by
  unfold write_post_receive_hook
  exact chmod755_isFile_isExec _ _ (writeText_isFile _ _ _)

theorem write_hook_bare (fs : FS) (repo_dir : FsPath) :
    (write_post_receive_hook fs repo_dir).bare = fs.bare := by
  unfold write_post_receive_hook
  rw [chmod755_bare, writeText_bare, mkdirP_bare]

theorem create_repo_act_hook (fs : FS) (org name : String) :
    (create_repo_act fs org name).isFile (create_repo_dir org name ++ ["hooks", "post-receive"]) = true ∧
    (create_repo_act fs org name).isExecFile (create_repo_dir org name ++ ["hooks", "post-receive"]) = true ∧
    (create_repo_act fs org name).isBareRepo (create_repo_dir org name) = true := by
  unfold create_repo_act
  refine ⟨(write_hook_isFile_isExec _ _).1, (write_hook_isFile_isExec _ _).2, ?_⟩
  unfold FS.isBareRepo
  rw [write_hook_bare]
  exact gitInitBare_isBare (fs.mkdirP (REPO_ROOT ++ [org])) (create_repo_dir org name)

/-! ## Lemmas about the validator -/

theorem allowed_not_space {c : Char} (h : allowedChar c = true) : pyIsSpace c = false := by
  cases hs : pyIsSpace c
  · rfl
  · exfalso
    simp only [pyIsSpace, Bool.or_eq_true, decide_eq_true_eq] at hs
    rcases hs with (((((h1 | h1) | h1) | h1) | h1) | h1) <;> subst h1 <;>
      exact absurd h (by decide)

theorem dropWhile_space_eq_self (l : List Char) (h : ∀ c ∈ l, pyIsSpace c = false) :
    l.dropWhile pyIsSpace = l := by
  cases l with
  | nil => rfl
  | cons c t =>
      rw [List.dropWhile_cons]
      simp [h c (List.mem_cons_self c t)]

theorem stripChars_eq_self (l : List Char) (h : ∀ c ∈ l, pyIsSpace c = false) :
    stripChars l = l := by
  unfold stripChars
  rw [dropWhile_space_eq_self l h,
    dropWhile_space_eq_self l.reverse (fun c hc => h c (List.mem_reverse.mp hc)),
    List.reverse_reverse]

theorem pyStrip_eq_self (s : String) (h : ∀ c ∈ s.data, pyIsSpace c = false) :
    pyStrip s = s := by
  unfold pyStrip
  rw [stripChars_eq_self s.data h]

theorem not_contains_of_all (l : List Char) (x : Char) (h : l.all allowedChar = true)
    (hx : allowedChar x = false) : l.contains x = false := by
  cases hc : l.contains x
  · rfl
  · exfalso
    rw [List.contains, List.elem_eq_mem, decide_eq_true_eq] at hc
    exact absurd (List.all_eq_true.mp h x hc) (by rw [hx]; exact Bool.false_ne_true)

/-! ## Claims C1 and C8: the validator contract -/

/-- The failure condition of claim C1 read literally on the raw input
string (spec-side predicate, stated for comparison with `safe_name`):
empty after trimming, or the raw input contains a separator, the
parent-directory sequence, or a character outside the allow-list. -/
def rawRejects (raw : String) : Bool :=
  (pyStrip raw).data.isEmpty || raw.data.contains '/' || raw.data.contains '\\' ||
    hasDotDot raw.data || raw.data.any (fun c => !allowedChar c)

/-- C1, counterexample: the raw input `" a "` contains the space character,
which is outside the allow-list `[A-Za-z0-9._-]`, so the claim as stated
predicts failure with `InvalidIdentifier`; `safe_name` instead succeeds
and returns the trimmed string `"a"`. -/
theorem C1_counterexample :
    rawRejects " a " = true ∧ safe_name " a " = .ok "a" := by decide

/-- The failure condition with every test evaluated on the trimmed input.
For the emptiness, separator and parent-directory tests this agrees with
testing the raw input (stripping removes only edge whitespace); for the
allow-list test it does not. -/
def trimRejects (raw : String) : Bool :=
  (pyStrip raw).data.isEmpty ||
    ((pyStrip raw).data.contains '/' || (pyStrip raw).data.contains '\\' ||
      hasDotDot (pyStrip raw).data) ||
    (pyStrip raw).data.any (fun c => !allowedChar c)

/-- C1 (amended): for every raw input, `safe_name` fails exactly when the
trimmed input is empty, or contains `/` or `\`, or contains `..`, or
contains a character outside the allow-list; and whenever it succeeds it
returns the trimmed input unchanged (no case folding, no truncation). -/
theorem C1_validator_amended (raw : String) :
    (trimRejects raw = true ∧ (safe_name raw).isOk = false) ∨
      (trimRejects raw = false ∧ safe_name raw = .ok (pyStrip raw)) := by
  unfold trimRejects safe_name
  cases h1 : (pyStrip raw).data.isEmpty <;>
    cases h2 : ((pyStrip raw).data.contains '/' || (pyStrip raw).data.contains '\\' ||
      hasDotDot (pyStrip raw).data) <;>
    cases h3 : (pyStrip raw).data.any (fun c => !allowedChar c) <;>
    simp_all [Except.isOk, Except.toBool]

/-- C8, counterexample: `".."` is non-empty and composed only of
allow-listed characters (dots), yet `safe_name` rejects it — the
parent-directory check fires before the allow-list check. -/
theorem C8_counterexample :
    (".." : String) ≠ "" ∧ "..".data.all allowedChar = true ∧
      (safe_name "..").isOk = false := by decide

/-- C8 (amended): every non-empty string composed only of allow-listed
characters that does not contain the substring `".."` is accepted by
`safe_name` and returned unchanged. -/
theorem C8_allowlist_amended (s : String) (hne : s ≠ "")
    (hall : s.data.all allowedChar = true) (hdd : hasDotDot s.data = false) :
    safe_name s = .ok s := by
  have hmem : ∀ c ∈ s.data, allowedChar c = true := List.all_eq_true.mp hall
  have hstrip : pyStrip s = s :=
    pyStrip_eq_self s (fun c hc => allowed_not_space (hmem c hc))
  have hne' : s.data ≠ [] := by
    intro h
    apply hne
    cases s with
    | mk data => rw [show data = [] from h]
  have h1 : s.data.isEmpty = false := List.isEmpty_eq_false.mpr hne'
  have h2 : '/' ∉ s.data := fun hc => absurd (hmem _ hc) (by decide)
  have h3 : '\\' ∉ s.data := fun hc => absurd (hmem _ hc) (by decide)
  have h4 : s.data.any (fun c => !allowedChar c) = false := by
    rw [List.any_eq_false]
    intro c hc
    rw [hmem c hc]
    exact fun hcon => by simp at hcon
  simp only [safe_name]
  rw [hstrip]
  simp [h1, h2, h3, h4, hdd]

/-- Witness for `C8_allowlist_amended` at the concrete input `"abc"`. -/
theorem C8_witness : safe_name "abc" = .ok "abc" :=
  C8_allowlist_amended "abc" (by decide) (by decide) (by decide)

/-! ## Claims C2, C3, C4: repository creation -/

/-- C2: when `create_repo` fails — with `InvalidIdentifier` (HTTP 400) or
`AlreadyExists` (HTTP 409), the only errors it raises — the filesystem is
exactly as before the call; and creating `("acme", "widgets")` twice from
the initial state succeeds once, yields the conflict on the second call,
and leaves exactly one repository on disk. -/
theorem C2_create_error_no_mutation :
    (∀ (fs : FS) (orgRaw nameRaw : String) (e : ApiErr),
        (create_repo fs orgRaw nameRaw).1 = .error e → (create_repo fs orgRaw nameRaw).2 = fs)
    ∧ ((create_repo FS.init "acme" "widgets").1.isOk = true
      ∧ (create_repo (create_repo FS.init "acme" "widgets").2 "acme" "widgets").1 =
          .error (.conflict "Repo already exists")
      ∧ list_repos (create_repo (create_repo FS.init "acme" "widgets").2 "acme" "widgets").2 =
          [⟨"acme", "widgets", ["repos", "acme", "widgets.git"]⟩]) := by
  constructor
  · intro fs orgRaw nameRaw e h
    unfold create_repo at h ⊢
    cases hc : create_repo_check fs orgRaw nameRaw with
    | error e2 => rfl
    | ok v => obtain ⟨org, name⟩ := v; rw [hc] at h; simp at h
  · exact ⟨by decide, by decide, by decide⟩

/-- Witness for `C2_create_error_no_mutation` at the concrete invalid
input `("bad/org", "x")`. -/
theorem C2_witness : (create_repo FS.init "bad/org" "x").2 = FS.init :=
  C2_create_error_no_mutation.1 FS.init "bad/org" "x" (.badRequest "Invalid name") (by decide)

/-- C3: provisioning short-circuits — on any error the filesystem (and so
any hook state) is exactly as before, so hook installation was never
attempted — and every returned descriptor points at a repository whose
`hooks/post-receive` file exists, is executable, and which the external
engine initialised as a valid bare repository. -/
theorem C3_provision_short_circuit_hook (fs : FS) (orgRaw nameRaw : String) :
    (∀ e, (create_repo fs orgRaw nameRaw).1 = .error e → (create_repo fs orgRaw nameRaw).2 = fs)
    ∧ (∀ resp, (create_repo fs orgRaw nameRaw).1 = .ok resp →
        (create_repo fs orgRaw nameRaw).2.isFile (resp.path ++ ["hooks", "post-receive"]) = true
        ∧ (create_repo fs orgRaw nameRaw).2.isExecFile
            (resp.path ++ ["hooks", "post-receive"]) = true
        ∧ (create_repo fs orgRaw nameRaw).2.isBareRepo resp.path = true) := by
  cases hc : create_repo_check fs orgRaw nameRaw with
  | error e2 =>
      have key : create_repo fs orgRaw nameRaw = (.error e2, fs) := by
        unfold create_repo; rw [hc]
      rw [key]
      constructor
      · intro e h; rfl
      · intro resp h; simp at h
  | ok v =>
      obtain ⟨org, name⟩ := v
      have key : create_repo fs orgRaw nameRaw =
          (.ok ⟨org, name, create_repo_dir org name⟩, create_repo_act fs org name) := by
        unfold create_repo; rw [hc]
      rw [key]
      constructor
      · intro e h; simp at h
      · intro resp h
        simp only [Except.ok.injEq] at h
        subst h
        exact create_repo_act_hook fs org name

/-- Witness for `C3_provision_short_circuit_hook`: the provisioned
`("acme", "widgets")` repository has an executable hook and is a valid
bare repository. -/
theorem C3_witness :
    (create_repo FS.init "acme" "widgets").2.isFile
        (["repos", "acme", "widgets.git"] ++ ["hooks", "post-receive"]) = true
    ∧ (create_repo FS.init "acme" "widgets").2.isExecFile
        (["repos", "acme", "widgets.git"] ++ ["hooks", "post-receive"]) = true
    ∧ (create_repo FS.init "acme" "widgets").2.isBareRepo
        ["repos", "acme", "widgets.git"] = true :=
  (C3_provision_short_circuit_hook FS.init "acme" "widgets").2
    ⟨"acme", "widgets", ["repos", "acme", "widgets.git"]⟩ (by decide)

/-- C4: the storage path is the fixed two-level convention
`<root>/<organization>/<name>.git`, computed identically by creation
(main.py line 69) and by push-log reading (main.py line 111), and every
descriptor returned by creation carries exactly the path derived from its
own identifier. -/
theorem C4_storage_path :
    (∀ org name, create_repo_dir org name = REPO_ROOT ++ [org, name ++ ".git"])
    ∧ (∀ org name, pushlog_repo_dir org name = create_repo_dir org name)
    ∧ (∀ (fs : FS) (orgRaw nameRaw : String) (resp : RepoResp),
        (create_repo fs orgRaw nameRaw).1 = .ok resp →
        resp.path = create_repo_dir resp.org resp.name) := by
  refine ⟨fun org name => rfl, fun org name => rfl, ?_⟩
  intro fs orgRaw nameRaw resp h
  cases hc : create_repo_check fs orgRaw nameRaw with
  | error e2 =>
      have key : create_repo fs orgRaw nameRaw = (.error e2, fs) := by
        unfold create_repo; rw [hc]
      rw [key] at h
      simp at h
  | ok v =>
      obtain ⟨org, name⟩ := v
      have key : create_repo fs orgRaw nameRaw =
          (.ok ⟨org, name, create_repo_dir org name⟩, create_repo_act fs org name) := by
        unfold create_repo; rw [hc]
      rw [key] at h
      simp only [Except.ok.injEq] at h
      subst h
      rfl

/-- Witness for `C4_storage_path` at the concrete success
`("acme", "widgets")`. -/
theorem C4_witness :
    (⟨"acme", "widgets", ["repos", "acme", "widgets.git"]⟩ : RepoResp).path =
      create_repo_dir (⟨"acme", "widgets", ["repos", "acme", "widgets.git"]⟩ : RepoResp).org
        (⟨"acme", "widgets", ["repos", "acme", "widgets.git"]⟩ : RepoResp).name :=
  C4_storage_path.2.2 FS.init "acme" "widgets"
    ⟨"acme", "widgets", ["repos", "acme", "widgets.git"]⟩ (by decide)

/-! ## Claim C6: reading the push log -/

/-- C6: for validated identifiers (fixed points of `safe_name`), reading
the push log fails with `NotFound` exactly when the repository path does
not exist; returns the empty string plus the `"No pushes logged yet"`
marker when the repository exists but `push.log` does not; and returns
the verbatim content of `push.log` when it is present. -/
theorem C6_pushlog_read (fs : FS) (org name : String)
    (ho : safe_name org = .ok org) (hn : safe_name name = .ok name) :
    (get_push_log fs org name = .error (.notFound "Repo not found")
      ↔ fs.pathExists (pushlog_repo_dir org name) = false)
    ∧ (fs.pathExists (pushlog_repo_dir org name) = true →
        fs.pathExists (pushlog_repo_dir org name ++ ["push.log"]) = false →
        get_push_log fs org name = .ok ⟨org, name, "", some "No pushes logged yet"⟩)
    ∧ (∀ content, fs.pathExists (pushlog_repo_dir org name) = true →
        fs.pathExists (pushlog_repo_dir org name ++ ["push.log"]) = true →
        fs.readFile (pushlog_repo_dir org name ++ ["push.log"]) = some content →
        get_push_log fs org name = .ok ⟨org, name, content, none⟩) := by
  have key : get_push_log fs org name =
      (if !fs.pathExists (pushlog_repo_dir org name) then
        .error (.notFound "Repo not found")
      else if !fs.pathExists (pushlog_repo_dir org name ++ ["push.log"]) then
        .ok ⟨org, name, "", some "No pushes logged yet"⟩
      else
        .ok ⟨org, name,
          (fs.readFile (pushlog_repo_dir org name ++ ["push.log"])).getD "", none⟩) := by
    unfold get_push_log
    rw [ho, hn]
  rw [key]
  cases hre : fs.pathExists (pushlog_repo_dir org name) <;>
    cases hl : fs.pathExists (pushlog_repo_dir org name ++ ["push.log"])
  · exact ⟨by simp, fun h1 _ => absurd h1 (by decide),
      fun c h1 _ _ => absurd h1 (by decide)⟩
  · exact ⟨by simp, fun h1 _ => absurd h1 (by decide),
      fun c h1 _ _ => absurd h1 (by decide)⟩
  · exact ⟨by simp, fun h1 h2 => by simp,
      fun c h1 h2 h3 => absurd h2 (by decide)⟩
  · exact ⟨by simp, fun h1 h2 => absurd h2 (by decide),
      fun c h1 h2 h3 => by simp [h3]⟩

/-- Witness for `C6_pushlog_read`: on the initial filesystem the
repository does not exist and reading its push log is `NotFound`. -/
theorem C6_witness :
    get_push_log FS.init "acme" "widgets" = .error (.notFound "Repo not found") :=
  ((C6_pushlog_read FS.init "acme" "widgets" (by decide) (by decide)).1).mpr (by decide)

example :
    get_push_log (create_repo FS.init "acme" "widgets").2 "acme" "widgets" =
      .ok ⟨"acme", "widgets", "", some "No pushes logged yet"⟩ := by decide

/-! ## Claim C5: the block appended by one hook invocation -/

/-- A log line of the ref-update shape: it starts with the two-space
indent that `echo "  $refname $oldrev -> $newrev"` produces and no other
line of the block does. -/
def isIndented (l : String) : Bool := l.data.take 2 == [' ', ' ']

theorem isIndented_update_line (u : RefUpdate) : isIndented (hook_update_line u) = true := rfl

theorem isIndented_time (ts : String) : isIndented ("time_utc=" ++ ts) = false := rfl

theorem isIndented_pusher (x : String) : isIndented ("pusher=" ++ x) = false := rfl

theorem isIndented_repo (x : String) : isIndented ("repo=" ++ x) = false := rfl

theorem readFile_appendText (fs : FS) (p : FsPath) (s : String) :
    (fs.appendText p s).readFile p = some ((fs.readFile p).getD "" ++ s) := by
  cases hf : fs.fileAt p with
  | none =>
      unfold FS.appendText FS.readFile
      rw [hf]
      simp [FS.fileAt, List.find?_cons_of_pos]
  | some f =>
      unfold FS.appendText FS.readFile
      rw [hf]
      simp [FS.fileAt, List.find?_cons_of_pos]

/-- C5: one hook invocation with `N` ref-update triples appends exactly
one block to `push.log` (the previous content is kept verbatim, the block
is appended as a unit); the block consists of the header line, the
timestamp line, the pusher line, the repository line, `updates:`, one
formatted line `"  <ref_name> <old_revision> -> <new_revision>"` per
update, and a trailing blank line; and it contains exactly `N` lines of
the indented ref-update shape. -/
theorem C5_hook_appends_block (fs : FS) (repo_dir : FsPath) (pusherEnv : Option String)
    (ts : String) (updates : List RefUpdate) :
    ((run_hook fs repo_dir pusherEnv ts updates).readFile (repo_dir ++ ["push.log"]) =
      some ((fs.readFile (repo_dir ++ ["push.log"])).getD "" ++
        linesText (hook_block ts (pusherEnv.getD "unknown") (pathString repo_dir) updates)))
    ∧ (hook_block ts (pusherEnv.getD "unknown") (pathString repo_dir) updates =
        ["=== PUSH ===", "time_utc=" ++ ts, "pusher=" ++ pusherEnv.getD "unknown",
          "repo=" ++ pathString repo_dir, "updates:"]
          ++ updates.map hook_update_line ++ [""]
        ∧ ∀ u ∈ updates,
            hook_update_line u = "  " ++ u.refname ++ " " ++ u.oldrev ++ " -> " ++ u.newrev)
    ∧ (hook_block ts (pusherEnv.getD "unknown") (pathString repo_dir) updates).countP
        isIndented = updates.length := by
  refine ⟨readFile_appendText fs (repo_dir ++ ["push.log"]) _,
    ⟨rfl, fun u _ => rfl⟩, ?_⟩
  have h2 : List.countP isIndented (updates.map hook_update_line) = updates.length := by
    have hall : ∀ a ∈ updates.map hook_update_line, isIndented a = true := by
      intro a ha
      obtain ⟨u, hu, rfl⟩ := List.mem_map.mp ha
      exact isIndented_update_line u
    calc List.countP isIndented (updates.map hook_update_line)
        = (updates.map hook_update_line).length := List.countP_eq_length.mpr hall
      _ = updates.length := List.length_map _ _
  unfold hook_block
  rw [List.countP_append, List.countP_append, h2]
  simp [List.countP_cons, isIndented_time, isIndented_pusher, isIndented_repo, isIndented]

/-! ## Claim C7: listing repositories -/

/-- A filesystem holding a directory three levels below the storage root
whose final component matches `*.git`. -/
def deepFS : FS := FS.init.mkdirP ["repos", "a", "b", "c.git"]

/-- Whether `p` has the two-level shape `<root>/<organization>/<name>.git`
the claim describes: directly an organization directory under the root
containing the `.git` directory. -/
def twoLevelUnderRoot (p : FsPath) : Bool :=
  (p.take REPO_ROOT.length == REPO_ROOT) && (p.length == REPO_ROOT.length + 2)

/-- C7, counterexample: `rglob("*.git")` matches at any depth, so listing
a store containing the directory `repos/a/b/c.git` returns a descriptor
(organization `"b"`, name `"c"`) for a path that is not of the two-level
shape — contradicting "no entries for directories not of that two-level
shape". -/
theorem C7_counterexample :
    list_repos deepFS = [⟨"b", "c", ["repos", "a", "b", "c.git"]⟩]
    ∧ twoLevelUnderRoot ["repos", "a", "b", "c.git"] = false := by decide

/-- The store after creating `("acme", "a")` then `("acme", "b")` from the
initial state. -/
def fsAB : FS := (create_repo (create_repo FS.init "acme" "a").2 "acme" "b").2

/-- C7 (amended): listing returns one descriptor per path under the
storage root — at any depth, not only the two-level shape — whose final
component matches `*.git`, with organization recovered as the parent
directory's name and name as the `.git`-stem; in particular, after
creating `("acme", "a")` and `("acme", "b")` it returns exactly those
two, both under `"acme"`, with no duplicates. -/
theorem C7_list_amended :
    ((list_repos fsAB).map (fun r => (r.org, r.name)) = [("acme", "a"), ("acme", "b")]
      ∧ (list_repos fsAB).Nodup)
    ∧ (∀ (fs : FS) (r : RepoResp), r ∈ list_repos fs →
        strictlyUnderRoot r.path = true
        ∧ strEndsWith (lastName r.path) ".git" = true
        ∧ r.org = parentName r.path
        ∧ r.name = pyStemGit (lastName r.path)) := by
  refine ⟨⟨by decide, by decide⟩, ?_⟩
  intro fs r hr
  unfold list_repos at hr
  rw [List.mem_filterMap] at hr
  obtain ⟨p, hp, hif⟩ := hr
  split at hif
  next hcond =>
    obtain rfl := Option.some.inj hif
    rw [Bool.and_eq_true] at hcond
    exact ⟨hcond.1, hcond.2, rfl, rfl⟩
  next hcond => exact absurd hif (by simp)

/-- Witness for `C7_list_amended` at the concrete member
`("acme", "a")` of the listing of `fsAB`. -/
theorem C7_witness :
    strictlyUnderRoot (["repos", "acme", "a.git"] : FsPath) = true
    ∧ strEndsWith (lastName ["repos", "acme", "a.git"]) ".git" = true
    ∧ (⟨"acme", "a", ["repos", "acme", "a.git"]⟩ : RepoResp).org =
        parentName ["repos", "acme", "a.git"]
    ∧ (⟨"acme", "a", ["repos", "acme", "a.git"]⟩ : RepoResp).name =
        pyStemGit (lastName ["repos", "acme", "a.git"]) :=
  C7_list_amended.2 fsAB ⟨"acme", "a", ["repos", "acme", "a.git"]⟩ (by decide)

/-! ## Claim C9: atomicity of hook installation -/

/-- The filesystem just before hook installation during
`create_repo FS.init "acme" "widgets"`: parent directory created and bare
repository initialised. -/
def fsBeforeHook : FS :=
  gitInitBare (FS.init.mkdirP (REPO_ROOT ++ ["acme"])) (create_repo_dir "acme" "widgets")

/-- C9 (the code violates the claim): installation is
`write_text` followed by `os.chmod`, so among the intermediate states of
`write_post_receive_hook` there is one — after line 58, before line 59 —
in which the hook file exists but is not executable; only the final state
is present-and-executable. -/
theorem C9_nonexec_window :
    (∃ s ∈ hook_install_states fsBeforeHook (create_repo_dir "acme" "widgets"),
      s.isFile (create_repo_dir "acme" "widgets" ++ ["hooks", "post-receive"]) = true
      ∧ s.isExecFile (create_repo_dir "acme" "widgets" ++ ["hooks", "post-receive"]) = false)
    ∧ (write_post_receive_hook fsBeforeHook (create_repo_dir "acme" "widgets")).isExecFile
        (create_repo_dir "acme" "widgets" ++ ["hooks", "post-receive"]) = true := by
  decide

/-! ## Claim C10: concurrent provisioning of the same identifier -/

/-- C10 (the code violates the claim): under the interleaving A-check,
B-check, A-act, B-act, both requests for the identical identifier
`("acme", "widgets")` pass the `repo_dir.exists()` check before either
mutates, and both finish with a success descriptor — never reporting
`AlreadyExists` — whereas the sequential schedule A-check, A-act,
B-check, B-act produces the one-success-one-conflict outcome the claim
requires of every execution. -/
theorem C10_race_both_succeed :
    (runRace ("acme", "widgets") ("acme", "widgets") FS.init [true, false, true, false]).a =
        .finished (.ok ⟨"acme", "widgets", create_repo_dir "acme" "widgets"⟩)
    ∧ (runRace ("acme", "widgets") ("acme", "widgets") FS.init [true, false, true, false]).b =
        .finished (.ok ⟨"acme", "widgets", create_repo_dir "acme" "widgets"⟩)
    ∧ (runRace ("acme", "widgets") ("acme", "widgets") FS.init [true, true, false, false]).a =
        .finished (.ok ⟨"acme", "widgets", create_repo_dir "acme" "widgets"⟩)
    ∧ (runRace ("acme", "widgets") ("acme", "widgets") FS.init [true, true, false, false]).b =
        .finished (.error (.conflict "Repo already exists")) := by
  decide

/-- Witness for `C5_hook_appends_block` at a concrete invocation with one
ref update on the initial filesystem. -/
theorem C5_witness :
    (run_hook FS.init ["repos", "acme", "widgets.git"] none "T"
        [⟨"0", "1", "refs/heads/main"⟩]).readFile
        (["repos", "acme", "widgets.git"] ++ ["push.log"]) =
      some ((FS.init.readFile (["repos", "acme", "widgets.git"] ++ ["push.log"])).getD "" ++
        linesText (hook_block "T" ((none : Option String).getD "unknown")
          (pathString ["repos", "acme", "widgets.git"]) [⟨"0", "1", "refs/heads/main"⟩])) :=
  (C5_hook_appends_block FS.init ["repos", "acme", "widgets.git"] none "T"
    [⟨"0", "1", "refs/heads/main"⟩]).1
